import Mathlib

/-
Verification of the mbt_gym `TradingEnvironment` simulation engine
(mbt_gym/gym/TradingEnvironment.py), shallowly embedded over ℚ.

The batched numpy state array is modelled as a list of per-trajectory
records (cash, inventory, elapsed time, concatenated process columns).
The stochastic sub-models (midprice, arrival, fill-probability,
price-impact) are not part of the verified source; their per-step outputs
enter the step function through an explicit `StepOracle`, over which the
theorems quantify universally.
-/

namespace MbtGym

/-- The four action regimes of ACTION_TYPES in the source. -/
inductive ActionType
  | touch
  | limit
  | limit_and_market
  | speed
deriving DecidableEq, Repr

/-- MARKET_MAKING_ACTION_TYPES = ["touch", "limit", "limit_and_market"]. -/
def MARKET_MAKING_ACTION_TYPES : List ActionType :=
  [ActionType.touch, ActionType.limit, ActionType.limit_and_market]

/-- The scalar configuration of a TradingEnvironment that the step
function reads: terminal_time, n_steps, the action regime, the bounds
used for clipping, and the half spread. -/
structure TradingConfig where
  terminal_time : ℚ
  n_steps : ℕ
  action_type : ActionType
  max_inventory : ℚ
  max_cash : ℚ
  half_spread : ℚ
deriving DecidableEq, Repr

/-- self._step_size = self.terminal_time / self.n_steps. -/
def TradingConfig.step_size (cfg : TradingConfig) : ℚ :=
  cfg.terminal_time / (cfg.n_steps : ℚ)

/-- One row of the batched state array: state[i, 0] = cash,
state[i, 1] = inventory, state[i, 2] = elapsed time, and
state[i, 3:] = the concatenated current states of the configured
stochastic processes (the midprice model always comes first, so the
asset price is `procState.headD 0`). -/
structure TrajState where
  cash : ℚ
  inventory : ℚ
  time : ℚ
  procState : List ℚ
deriving DecidableEq, Repr

instance : Inhabited TrajState := ⟨⟨0, 0, 0, []⟩⟩

/-- self.midprice: column 0 of the midprice model's current state,
which is column 3 of the state array, i.e. the head of `procState`. -/
def TrajState.midprice (s : TrajState) : ℚ :=
  s.procState.headD 0

/-- An action row is a list of rationals (the columns of the numpy
action array for one trajectory). -/
def limit_depths (a : List ℚ) : ℚ × ℚ :=
  (a.getD 0 0, a.getD 1 0)

/-- action[:, 2] for the limit_and_market regime. -/
def market_order_buy (a : List ℚ) : ℚ :=
  a.getD 2 0

/-- action[:, 3] for the limit_and_market regime. -/
def market_order_sell (a : List ℚ) : ℚ :=
  a.getD 3 0

/-- action[:, 0:2] for the touch regime. -/
def post_at_touch (a : List ℚ) : ℚ × ℚ :=
  (a.getD 0 0, a.getD 1 0)

/-- action[:, 0] for the speed regime. -/
def speed_action (a : List ℚ) : ℚ :=
  a.getD 0 0

/-- The per-step outputs of the configured stochastic processes, which
live outside the verified source: `arrivals` is the pair returned by
arrival_model.get_arrivals(), `get_fills` is
fill_probability_model.get_fills as a function of the posted depths,
`get_impact` is price_impact_model.get_impact as a function of the speed
action, and `procUpdate` maps the pre-step process columns to the
post-step process columns (the composed effect of every
process.update(...) followed by writing process.current_state back into
the state array, which touches only columns 3 and beyond). -/
structure StepOracle where
  arrivals : ℚ × ℚ
  get_fills : ℚ × ℚ → ℚ × ℚ
  get_impact : ℚ → ℚ
  procUpdate : List ℚ → List ℚ

/-- self.is_at_max_inventory: state[:, 1] >= self.max_inventory. -/
def is_at_max_inventory (cfg : TradingConfig) (s : TrajState) : Bool :=
  cfg.max_inventory ≤ s.inventory

/-- self.is_at_min_inventory: state[:, 1] <= -self.max_inventory. -/
def is_at_min_inventory (cfg : TradingConfig) (s : TrajState) : Bool :=
  s.inventory ≤ -cfg.max_inventory

/-- self._remove_max_inventory_fills: multiplies the bid fill by
(1 - is_at_max_inventory) and the ask fill by (1 - is_at_min_inventory). -/
def remove_max_inventory_fills (cfg : TradingConfig) (s : TrajState)
    (fills : ℚ × ℚ) : ℚ × ℚ :=
  (((if is_at_max_inventory cfg s then (0 : ℚ) else 1)) * fills.1,
   ((if is_at_min_inventory cfg s then (0 : ℚ) else 1)) * fills.2)

/-- The fills before max-inventory suppression, as computed inside
self._get_arrivals_and_fills: get_fills(depths) for the limit regimes
and action[:, 0:2] for touch.  Never reached for speed. -/
def raw_fills (cfg : TradingConfig) (o : StepOracle) (a : List ℚ) : ℚ × ℚ :=
  match cfg.action_type with
  | ActionType.limit => o.get_fills (limit_depths a)
  | ActionType.limit_and_market => o.get_fills (limit_depths a)
  | ActionType.touch => post_at_touch a
  | ActionType.speed => (0, 0)

/-- self._get_arrivals_and_fills: arrivals from the arrival model and
fills (suppressed at the inventory bounds) per regime. -/
def get_arrivals_and_fills (cfg : TradingConfig) (s : TrajState)
    (o : StepOracle) (a : List ℚ) : (ℚ × ℚ) × (ℚ × ℚ) :=
  (o.arrivals, remove_max_inventory_fills cfg s (raw_fills cfg o a))

/-- np.clip(x, lo, hi) = np.minimum(np.maximum(x, lo), hi). -/
def np_clip (x lo hi : ℚ) : ℚ :=
  min (max x lo) hi

/-- The clipping report of self._clip: whether the inventory and the cash
were changed by clipping (a print, i.e. a non-fatal logged event). -/
structure ClipEvents where
  inventory_clipped : Bool
  cash_clipped : Bool
deriving DecidableEq, Repr

/-- The agent-state update of self._update_agent_state before
self._clip_inventory_and_cash and the time increment: the if/elif chain
on the action type, followed by the execution branch for speed.  Note
that for limit_and_market only the first branch of the chain runs (the
`elif action_type in ["limit", "limit_and_market"]` arm is shadowed). -/
def update_agent_state_unclipped (cfg : TradingConfig) (o : StepOracle)
    (s : TrajState) (arrivals fills : ℚ × ℚ) (a : List ℚ) : TrajState :=
  let mid := s.midprice
  let s1 :=
    match cfg.action_type with
    | ActionType.limit_and_market =>
        let mo_buy : ℚ := if (1 / 2 : ℚ) < market_order_buy a then 1 else 0
        let mo_sell : ℚ := if (1 / 2 : ℚ) < market_order_sell a then 1 else 0
        { s with
          cash := s.cash + (mo_sell * (mid - cfg.half_spread)
                    - mo_buy * (mid + cfg.half_spread)),
          inventory := s.inventory + (mo_buy - mo_sell) }
    | ActionType.touch =>
        { s with
          cash := s.cash + (-(arrivals.1 * fills.1 * (mid - cfg.half_spread))
                    + arrivals.2 * fills.2 * (mid + cfg.half_spread)),
          inventory := s.inventory + (arrivals.1 * fills.1 - arrivals.2 * fills.2) }
    | ActionType.limit =>
        let depths := limit_depths a
        { s with
          inventory := s.inventory + (arrivals.1 * fills.1 - arrivals.2 * fills.2),
          cash := s.cash + (-(arrivals.1 * fills.1 * (mid - depths.1))
                    + arrivals.2 * fills.2 * (mid + depths.2)) }
    | ActionType.speed => s
  match cfg.action_type with
  | ActionType.speed =>
      let price_impact := o.get_impact (speed_action a)
      let execution_price := mid + price_impact
      let volume := speed_action a * cfg.step_size
      { s1 with
        cash := s1.cash - volume * execution_price,
        inventory := s1.inventory + volume }
  | _ => s1

/-- self._clip_inventory_and_cash: clips inventory to
[-max_inventory, max_inventory] and cash to [-max_cash, max_cash] in
place, reporting (printing) any clipping event. -/
def clip_inventory_and_cash (cfg : TradingConfig) (s : TrajState) :
    TrajState × ClipEvents :=
  let inv := np_clip s.inventory (-cfg.max_inventory) cfg.max_inventory
  let csh := np_clip s.cash (-cfg.max_cash) cfg.max_cash
  ({ s with inventory := inv, cash := csh },
   ⟨decide (inv ≠ s.inventory), decide (csh ≠ s.cash)⟩)

/-- self._update_agent_state: the regime-specific cash/inventory update,
then clipping, then the time increment by step_size. -/
def update_agent_state (cfg : TradingConfig) (o : StepOracle) (s : TrajState)
    (arrivals fills : ℚ × ℚ) (a : List ℚ) : TrajState × ClipEvents :=
  let s2 := update_agent_state_unclipped cfg o s arrivals fills a
  let c := clip_inventory_and_cash cfg s2
  ({ c.1 with time := c.1.time + cfg.step_size }, c.2)

/-- self._update_market_state: every configured process advances and its
slice of the state array (columns 3 and beyond) is overwritten; cash,
inventory and time are untouched. -/
def update_market_state (o : StepOracle) (s : TrajState) : TrajState :=
  { s with procState := o.procUpdate s.procState }

/-- The arrivals/fills pair consumed by one step: computed by
self._get_arrivals_and_fills for the market-making regimes and None
(modelled as zeros, unused) otherwise. -/
def step_arrivals_fills (cfg : TradingConfig) (s : TrajState) (o : StepOracle)
    (a : List ℚ) : (ℚ × ℚ) × (ℚ × ℚ) :=
  if cfg.action_type ∈ MARKET_MAKING_ACTION_TYPES then
    get_arrivals_and_fills cfg s o a
  else ((0, 0), (0, 0))

/-- self._update_state for one trajectory: arrivals and fills are
computed for the market-making regimes, then the agent state is updated,
then the market state. -/
def step_traj (cfg : TradingConfig) (o : StepOracle) (a : List ℚ)
    (s : TrajState) : TrajState × ClipEvents :=
  let af := step_arrivals_fills cfg s o a
  let r := update_agent_state cfg o s af.1 af.2 a
  (update_market_state o r.1, r.2)

/-- self.step for the whole batch: each trajectory is advanced by
step_traj, done is evaluated on the updated time of trajectory 0 as
`time >= terminal_time - step_size / 2`, and the dones array repeats the
same flag for every trajectory (np.full). -/
def step_batch (cfg : TradingConfig) (states : List TrajState)
    (inputs : List (List ℚ × StepOracle)) : List TrajState × List Bool :=
  let next := (states.zip inputs).map (fun p => (step_traj cfg p.2.2 p.2.1 p.1).1)
  let done := decide (cfg.terminal_time - cfg.step_size / 2 ≤ (next.headD default).time)
  (next, List.replicate next.length done)

/-- k calls to step from an initial batch, where `ins j` supplies the
per-trajectory actions and process outputs consumed by call j+1. -/
def run_steps (cfg : TradingConfig) (ins : ℕ → List (List ℚ × StepOracle))
    (s0 : List TrajState) : ℕ → List TrajState
  | 0 => s0
  | k + 1 => (step_batch cfg (run_steps cfg ins s0 k) (ins k)).1

/-- The dones array returned by call k+1 to step. -/
def dones_at (cfg : TradingConfig) (ins : ℕ → List (List ℚ × StepOracle))
    (s0 : List TrajState) (k : ℕ) : List Bool :=
  (step_batch cfg (run_steps cfg ins s0 k) (ins k)).2

/-- Concrete fixture: a limit-regime configuration with terminal_time 1,
2 steps, max_inventory 5, max_cash 100, used by witnesses. -/
def cfg_limit_w : TradingConfig :=
  ⟨1, 2, ActionType.limit, 5, 100, 0⟩

/-- Concrete fixture: a single fresh trajectory starting at time 0. -/
def s0_episode_w : List TrajState :=
  [⟨0, 0, 0, [50]⟩]

/-- Concrete fixture: a touch-regime configuration. -/
def cfg_touch_w : TradingConfig :=
  ⟨1, 2, ActionType.touch, 5, 100, 1⟩

/-- Concrete fixture: an oracle with one arrival on each side and a
fill-probability model that always returns probability 1, over an
unmoving market. -/
def oracle_ones_w : StepOracle :=
  ⟨(1, 1), fun _ => (1, 1), fun _ => 0, fun p => p⟩

/-- Concrete fixture: a single-trajectory batch whose inventory starts
beyond max_inventory, with midprice 50. -/
def states_w : List TrajState :=
  [⟨0, 10, 0, [50]⟩]

/-- Concrete fixture: batched inputs posting depth 1 on both sides with
the always-fill oracle. -/
def inputs_w : List (List ℚ × StepOracle) :=
  [([1, 1], oracle_ones_w)]

/-- The fatal errors raised while constructing or resetting the
environment: the assert on the action type, the asserts on required
processes, the assert on the resolved start time, the exception on a
malformed initial_inventory, and the assert/conversion failure on a
missing max_depth for the limit-family action spaces. -/
inductive EnvError
  | unsupported_action_type
  | missing_arrival_model
  | missing_fill_probability_model
  | missing_price_impact_model
  | bad_start_time
  | bad_initial_inventory
  | unresolved_max_depth
deriving DecidableEq, Repr

/-- np.round: round half to even (banker's rounding), as numpy does. -/
def round_half_even (q : ℚ) : ℤ :=
  if q - ⌊q⌋ < 1 / 2 then ⌊q⌋
  else if 1 / 2 < q - ⌊q⌋ then ⌊q⌋ + 1
  else if ⌊q⌋ % 2 = 0 then ⌊q⌋ else ⌊q⌋ + 1

/-- self._quantise_time_to_step: asserts 0 <= time < terminal_time (a
fatal assertion failure otherwise), then snaps the time to the nearest
multiple of step_size with np.round. -/
def quantise_time_to_step (cfg : TradingConfig) (time : ℚ) :
    Except EnvError ℚ :=
  if 0 ≤ time ∧ time < cfg.terminal_time then
    Except.ok ((round_half_even (time / cfg.step_size) : ℚ) * cfg.step_size)
  else Except.error EnvError.bad_start_time

/-- Modelled from the spec: a stochastic process instance owns a seed, a
position in its random stream, and a current batched state vector.  The
process implementations are not under src/ (the engine only consumes
them through the contract of spec §4.2). -/
structure ProcessState where
  seed : Option ℤ
  counter : ℕ
  current_state : List ℚ
deriving DecidableEq, Repr

/-- Modelled from the spec: process.seed(v) re-seeds the process's own
random generator, restarting its reproducible stream. -/
def ProcessState.seed_with (p : ProcessState) (v : ℤ) : ProcessState :=
  { p with seed := some v, counter := 0 }

/-- The source's seeding loop in TradingEnvironment.seed:
`for i, process in enumerate(...): process.seed(seed + i + 1)`. -/
def seed_processes (v : ℤ) : ℕ → List ProcessState → List ProcessState
  | _, [] => []
  | i, p :: ps => p.seed_with (v + i + 1) :: seed_processes v (i + 1) ps

/-- np.random.default_rng(seed) together with the number of draws already
consumed from it. -/
structure EngineRng where
  seed : Option ℤ
  counter : ℕ
deriving DecidableEq, Repr

/-- initial_inventory: either an int (applied to all trajectories) or a
2-tuple (a uniform-integer draw per trajectory from the engine rng);
anything else raises at construction/reset. -/
inductive InitialInventory
  | int_value (n : ℤ)
  | pair (lo hi : ℤ)
  | malformed
deriving DecidableEq, Repr

/-- Modelled from the spec: the random primitives of the composed system
as pure functions of seed and stream position (spec §5: process-level
randomness is reproducible from the process seed; the engine rng is used
only for initial-inventory sampling).  `mkOracle` is the composition glue
that turns the per-step process draws into the arrivals/fills/impact
consumed by the agent-state update — the process method implementations
are not under src/. -/
structure RandomModel where
  procNoise : Option ℤ → ℕ → ℚ
  procInit : Option ℤ → List ℚ
  engineDraw : Option ℤ → ℕ → ℤ × ℤ → ℚ
  procUpd : List ℚ → ℚ → List ℚ
  mkOracle : List ℚ → StepOracle

/-- The mutable state of a constructed TradingEnvironment that the
lifecycle operations (seed, reset, step) read and write. -/
structure SeededEnv where
  config : TradingConfig
  initial_cash : ℚ
  initial_inventory : InitialInventory
  num_trajectories : ℕ
  random_start : ℚ
  rng : EngineRng
  processes : List ProcessState
  state : List TrajState

/-- self.seed(v): the engine rng is re-created from v and process i
receives the derived seed v + i + 1. -/
def SeededEnv.seed_env (e : SeededEnv) (v : ℤ) : SeededEnv :=
  { e with rng := ⟨some v, 0⟩, processes := seed_processes v 0 e.processes }

/-- Modelled from the spec: process.reset() re-draws the process state
from scratch from its seed lineage. -/
def ProcessState.reset_proc (rm : RandomModel) (p : ProcessState) : ProcessState :=
  { p with counter := 0, current_state := rm.procInit p.seed }

/-- self._get_initial_inventories: a batch of engine-rng draws for a
2-tuple, a constant batch for an int, an exception otherwise. -/
def get_initial_inventories (rm : RandomModel) (e : SeededEnv) :
    Except EnvError (List ℚ) :=
  match e.initial_inventory with
  | InitialInventory.pair lo hi =>
      Except.ok ((List.range e.num_trajectories).map
        (fun i => rm.engineDraw e.rng.seed (e.rng.counter + i) (lo, hi)))
  | InitialInventory.int_value n =>
      Except.ok (List.replicate e.num_trajectories (n : ℚ))
  | InitialInventory.malformed => Except.error EnvError.bad_initial_inventory

/-- The engine rng after self._get_initial_inventories: the 2-tuple case
consumes one draw per trajectory. -/
def SeededEnv.rng_after_initial_inventories (e : SeededEnv) : EngineRng :=
  match e.initial_inventory with
  | InitialInventory.pair _ _ => ⟨e.rng.seed, e.rng.counter + e.num_trajectories⟩
  | _ => e.rng

/-- self.initial_state: resolves and quantises the start time (fatal
assertion if out of range), samples the initial inventories (fatal if
malformed), and builds one row per trajectory with the initial cash, the
drawn inventory, the snapped start time, and each process's initial
vector state appended in registry order. -/
def SeededEnv.build_initial_state (rm : RandomModel) (e : SeededEnv) :
    Except EnvError SeededEnv :=
  match quantise_time_to_step e.config e.random_start with
  | Except.error err => Except.error err
  | Except.ok t0 =>
      match get_initial_inventories rm e with
      | Except.error err => Except.error err
      | Except.ok invs =>
          let cols := (e.processes.map (fun p => rm.procInit p.seed)).flatten
          Except.ok { e with
            rng := e.rng_after_initial_inventories,
            state := invs.map (fun q => ⟨e.initial_cash, q, t0, cols⟩) }

/-- self.reset(): every configured process resets, then the state vector
is rebuilt from scratch. -/
def SeededEnv.reset_env (rm : RandomModel) (e : SeededEnv) :
    Except EnvError SeededEnv :=
  SeededEnv.build_initial_state rm
    { e with processes := e.processes.map (ProcessState.reset_proc rm) }

/-- The seeding portion of TradingEnvironment.__init__: the engine rng is
created from the given seed, and — because of the Python-truthiness test
`if seed:` — self.seed(seed) runs only when the seed is present and
nonzero; then the initial state is built. -/
def init_env (rm : RandomModel) (cfg : TradingConfig) (c0 : ℚ)
    (ii : InitialInventory) (m : ℕ) (rs : ℚ) (procs : List ProcessState)
    (seed : Option ℤ) : Except EnvError SeededEnv :=
  let e0 : SeededEnv := ⟨cfg, c0, ii, m, rs, ⟨seed, 0⟩, procs, []⟩
  let e1 :=
    match seed with
    | some v => if v ≠ 0 then e0.seed_env v else e0
    | none => e0
  SeededEnv.build_initial_state rm e1

/-- Modelled from the spec: one engine step over the seeded model — each
process draws the next value of its reproducible stream and advances by
one step, and the agent rows are advanced by step_traj with the oracle
assembled from those draws by the composition glue, the new process
columns overwriting columns 3 and beyond. -/
def SeededEnv.step_env (rm : RandomModel) (e : SeededEnv) (a : List (List ℚ)) :
    SeededEnv :=
  let draws := e.processes.map (fun p => rm.procNoise p.seed p.counter)
  let procs := e.processes.map (fun p =>
    { p with counter := p.counter + 1,
             current_state := rm.procUpd p.current_state
               (rm.procNoise p.seed p.counter) })
  let cols := (procs.map ProcessState.current_state).flatten
  let o : StepOracle := { rm.mkOracle draws with procUpdate := fun _ => cols }
  { e with processes := procs,
           state := (e.state.zip a).map
             (fun p => (step_traj e.config o p.2 p.1).1) }

/-- The sequence of post-step state vectors produced by stepping through
a list of per-step batched actions. -/
def run_from (rm : RandomModel) : SeededEnv → List (List (List ℚ)) → List (List TrajState)
  | _, [] => []
  | e, a :: rest =>
      (SeededEnv.step_env rm e a).state :: run_from rm (SeededEnv.step_env rm e a) rest

/-- A full seeded run: seed with v, reset, then one step per action. -/
def run_episode (rm : RandomModel) (e : SeededEnv) (v : ℤ)
    (acts : List (List (List ℚ))) : List (List TrajState) :=
  match (e.seed_env v).reset_env rm with
  | Except.error _ => []
  | Except.ok e0 => run_from rm e0 acts

/-- Modelled from the spec: the default midprice model is a
Brownian-motion midprice model (its implementation is not under src/);
one update advances the price by drift times step size plus volatility
noise, so with zero volatility and nonzero drift the advance is a
deterministic shift. -/
def brownian_drift_update (drift step_size : ℚ) (cols : List ℚ) : List ℚ :=
  cols.map (fun p => p + drift * step_size)

/-- Concrete fixture: a speed-regime configuration with terminal_time 1,
10 steps, max_inventory 10, max_cash 1000. -/
def cfg_speed_w : TradingConfig :=
  ⟨1, 10, ActionType.speed, 10, 1000, 0⟩

/-- Concrete fixture: a speed-regime oracle whose midprice model drifts
deterministically by 1/10 per step (zero volatility, drift 1). -/
def oracle_drift_w : StepOracle :=
  ⟨(0, 0), fun _ => (0, 0), fun _ => 0, brownian_drift_update 1 (1 / 10)⟩

/-- Concrete fixture: a fully explicit random model (arbitrary but
fixed pure noise functions). -/
def rm_w : RandomModel :=
  ⟨fun s n => ((s.getD 0 : ℤ) : ℚ) + n, fun s => [((s.getD 0 : ℤ) : ℚ)],
   fun s n _ => ((s.getD 0 : ℤ) : ℚ) + n, fun c d => c.map (fun x => x + d),
   fun _ => oracle_ones_w⟩

/-- Concrete fixture: two unseeded processes with default state. -/
def procs_w : List ProcessState :=
  [⟨none, 0, [100]⟩, ⟨none, 0, [0]⟩]

/-- Concrete fixture: a freshly built environment. -/
def env_run_a : SeededEnv :=
  ⟨cfg_limit_w, 0, InitialInventory.pair 0 3, 1, 0, ⟨none, 0⟩,
   [⟨none, 0, [100]⟩], []⟩

/-- Concrete fixture: the same configuration as env_run_a but with
mutated engine-rng position, process internals and state rows (as left
behind by some earlier episode). -/
def env_run_b : SeededEnv :=
  ⟨cfg_limit_w, 0, InitialInventory.pair 0 3, 1, 0, ⟨some 9, 57⟩,
   [⟨some 4, 12, [3]⟩], [⟨1, 2, 3, [4]⟩]⟩

/-- Concrete fixture: an environment whose start time 9/10 snaps to the
terminal time 1 under step size 1/2. -/
def env_q_w : SeededEnv :=
  ⟨cfg_limit_w, 0, InitialInventory.int_value 2, 1, 9 / 10, ⟨none, 0⟩,
   [⟨none, 0, [100]⟩], []⟩

/-- Modelled from the spec: the per-process mutable step_size and
num_trajectories attributes that the environment's property setters fan
out to (the process implementations are not under src/). -/
structure PropProcess where
  step_size : ℚ
  num_trajectories : ℕ
deriving DecidableEq, Repr

/-- Modelled from the spec: the reward function may optionally expose a
step_size attribute (the source tests hasattr) which the engine keeps
synchronized. -/
structure RewardFunctionModel where
  has_step_size : Bool
  step_size : ℚ
deriving DecidableEq, Repr

/-- One printed notice per component affected by a property setter. -/
inductive Notice
  | process (i : ℕ)
  | reward
deriving DecidableEq, Repr

/-- The environment fields read and written by the two property setters. -/
structure PropEnv where
  step_size : ℚ
  num_trajectories : ℕ
  processes : List PropProcess
  reward_function : RewardFunctionModel
deriving DecidableEq, Repr

/-- The propagation loop of the step_size setter: each process whose
step_size differs gets a printed notice and the new value. -/
def propagate_step_size (v : ℚ) : ℕ → List PropProcess →
    List PropProcess × List Notice
  | _, [] => ([], [])
  | i, p :: ps =>
      let rest := propagate_step_size v (i + 1) ps
      if p.step_size ≠ v then
        ({ p with step_size := v } :: rest.1, Notice.process i :: rest.2)
      else (p :: rest.1, rest.2)

/-- The propagation loop of the num_trajectories setter. -/
def propagate_num_trajectories (v : ℕ) : ℕ → List PropProcess →
    List PropProcess × List Notice
  | _, [] => ([], [])
  | i, p :: ps =>
      let rest := propagate_num_trajectories v (i + 1) ps
      if p.num_trajectories ≠ v then
        ({ p with num_trajectories := v } :: rest.1, Notice.process i :: rest.2)
      else (p :: rest.1, rest.2)

/-- The step_size property setter: stores the value, propagates it to
every differing process (one notice each) and — when the reward function
has a step_size attribute — to the reward function with a notice. -/
def set_step_size (e : PropEnv) (v : ℚ) : PropEnv × List Notice :=
  let pr := propagate_step_size v 0 e.processes
  if e.reward_function.has_step_size then
    ({ e with
        step_size := v,
        processes := pr.1,
        reward_function := { e.reward_function with step_size := v } },
     pr.2 ++ [Notice.reward])
  else
    ({ e with
        step_size := v,
        processes := pr.1 }, pr.2)

/-- The num_trajectories property setter: stores the value and propagates
it to every differing process (one notice each); the source has no
reward-function branch here. -/
def set_num_trajectories (e : PropEnv) (v : ℕ) : PropEnv × List Notice :=
  let pr := propagate_num_trajectories v 0 e.processes
  ({ e with
      num_trajectories := v,
      processes := pr.1 }, pr.2)

/-- Concrete fixture for the setters: one process and a reward function
that tracks step_size. -/
def env_prop_w : PropEnv :=
  ⟨1, 1, [⟨1, 1⟩], ⟨true, 1⟩⟩

/-- The Python action_type argument: one of the four supported strings,
or any other (unsupported) string. -/
inductive RawActionType
  | touch
  | limit
  | limit_and_market
  | speed
  | unsupported
deriving DecidableEq, Repr

/-- The three optional processes whose presence the constructor checks. -/
inductive ProcId
  | arrival_model
  | fill_probability_model
  | price_impact_model
deriving DecidableEq, Repr

/-- The construction inputs read by the constructor's validation.
fill_model_max_depth is the configured fill-probability model's
max_depth bound (modelled from the spec contract — the model code is not
under src/), meaningful only when that model is present. -/
structure BuildInputs where
  terminal_time : ℚ
  n_steps : ℕ
  action_type : RawActionType
  has_arrival_model : Bool
  has_fill_probability_model : Bool
  has_price_impact_model : Bool
  fill_model_max_depth : Option ℚ
  max_depth : Option ℚ
  initial_inventory : InitialInventory
  random_start : ℚ
deriving DecidableEq, Repr

/-- The processes each action type requires, in assertion order. -/
def required_processes : RawActionType → List ProcId
  | RawActionType.touch => [ProcId.arrival_model]
  | RawActionType.limit => [ProcId.arrival_model, ProcId.fill_probability_model]
  | RawActionType.limit_and_market =>
      [ProcId.arrival_model, ProcId.fill_probability_model]
  | RawActionType.speed => [ProcId.price_impact_model]
  | RawActionType.unsupported => []

/-- Whether the named process is configured. -/
def has_process (b : BuildInputs) : ProcId → Bool
  | ProcId.arrival_model => b.has_arrival_model
  | ProcId.fill_probability_model => b.has_fill_probability_model
  | ProcId.price_impact_model => b.has_price_impact_model

/-- The assertion raised for a missing process. -/
def missing_error : ProcId → EnvError
  | ProcId.arrival_model => EnvError.missing_arrival_model
  | ProcId.fill_probability_model => EnvError.missing_fill_probability_model
  | ProcId.price_impact_model => EnvError.missing_price_impact_model

/-- self._check_required_stochastic_processes: asserts the action type is
supported, then asserts each required process is configured, in order. -/
def check_required_stochastic_processes (b : BuildInputs) :
    Except EnvError Unit :=
  if b.action_type = RawActionType.unsupported then
    Except.error EnvError.unsupported_action_type
  else
    match (required_processes b.action_type).find? (fun n => ! has_process b n) with
    | some n => Except.error (missing_error n)
    | none => Except.ok ()

/-- Python `a or b` over the optional max_depth: None and 0.0 are falsy
and fall through to the second operand. -/
def py_or_opt (a b : Option ℚ) : Option ℚ :=
  match a with
  | some q => if q = 0 then b else some q
  | none => b

/-- self._get_max_depth: the fill-probability model's bound when that
model is configured, None otherwise. -/
def get_max_depth (b : BuildInputs) : Option ℚ :=
  if b.has_fill_probability_model then b.fill_model_max_depth else none

/-- self.max_depth = max_depth or self._get_max_depth(). -/
def resolved_max_depth (b : BuildInputs) : Option ℚ :=
  py_or_opt b.max_depth (get_max_depth b)

/-- self._get_action_space at construction: the limit regime asserts
max_depth is not None, and the limit_and_market regime fails converting
None bounds to floats; the touch and speed spaces always build. -/
def get_action_space_check (b : BuildInputs) : Except EnvError Unit :=
  match b.action_type with
  | RawActionType.limit =>
      if (resolved_max_depth b).isSome then Except.ok ()
      else Except.error EnvError.unresolved_max_depth
  | RawActionType.limit_and_market =>
      if (resolved_max_depth b).isSome then Except.ok ()
      else Except.error EnvError.unresolved_max_depth
  | _ => Except.ok ()

/-- The checks run by `self.state = self.initial_state` at construction:
the start-time assertion, then the initial-inventory shape check. -/
def initial_state_check (b : BuildInputs) : Except EnvError Unit :=
  if 0 ≤ b.random_start ∧ b.random_start < b.terminal_time then
    match b.initial_inventory with
    | InitialInventory.malformed => Except.error EnvError.bad_initial_inventory
    | _ => Except.ok ()
  else Except.error EnvError.bad_start_time

/-- The fatal-validation sequence of TradingEnvironment.__init__ in
source order: required processes (line 69), the initial state (line 79),
the action space (line 85). -/
def construct_env (b : BuildInputs) : Except EnvError Unit :=
  match check_required_stochastic_processes b with
  | Except.error err => Except.error err
  | Except.ok _ =>
      match initial_state_check b with
      | Except.error err => Except.error err
      | Except.ok _ => get_action_space_check b

/-- Whether a construction attempt succeeded. -/
def is_success {ε α : Type} : Except ε α → Bool
  | Except.ok _ => true
  | Except.error _ => false

/-- Concrete fixture: a well-formed limit-regime construction input. -/
def build_ok_w : BuildInputs :=
  ⟨1, 2, RawActionType.limit, true, true, false, some 4, none,
   InitialInventory.int_value 0, 0⟩

/-- Concrete fixture: the same input with an unsupported action type. -/
def build_bad_w : BuildInputs :=
  ⟨1, 2, RawActionType.unsupported, true, true, false, some 4, none,
   InitialInventory.int_value 0, 0⟩

section Lemmas

theorem np_clip_le (x lo hi : ℚ) : np_clip x lo hi ≤ hi :=
  min_le_right _ _

theorem le_np_clip (x lo hi : ℚ) (h : lo ≤ hi) : lo ≤ np_clip x lo hi :=
  le_min (le_max_right _ _) h

/-- The stepped inventory is exactly the clip of the agent-state update. -/
theorem step_traj_inventory (cfg : TradingConfig) (o : StepOracle) (a : List ℚ)
    (s : TrajState) :
    (step_traj cfg o a s).1.inventory
      = np_clip (update_agent_state_unclipped cfg o s
          (step_arrivals_fills cfg s o a).1 (step_arrivals_fills cfg s o a).2
          a).inventory (-cfg.max_inventory) cfg.max_inventory :=
  rfl

/-- The stepped cash is exactly the clip of the agent-state update. -/
theorem step_traj_cash (cfg : TradingConfig) (o : StepOracle) (a : List ℚ)
    (s : TrajState) :
    (step_traj cfg o a s).1.cash
      = np_clip (update_agent_state_unclipped cfg o s
          (step_arrivals_fills cfg s o a).1 (step_arrivals_fills cfg s o a).2
          a).cash (-cfg.max_cash) cfg.max_cash :=
  rfl

/-- The regime-specific agent update never touches the elapsed time. -/
theorem update_agent_state_unclipped_time (cfg : TradingConfig) (o : StepOracle)
    (s : TrajState) (arrivals fills : ℚ × ℚ) (a : List ℚ) :
    (update_agent_state_unclipped cfg o s arrivals fills a).time = s.time := by
  rcases cfg with ⟨T, n, t, mi, mc, h⟩
  cases t <;> rfl

/-- The regime-specific agent update never touches the process columns. -/
theorem update_agent_state_unclipped_procState (cfg : TradingConfig)
    (o : StepOracle) (s : TrajState) (arrivals fills : ℚ × ℚ) (a : List ℚ) :
    (update_agent_state_unclipped cfg o s arrivals fills a).procState
      = s.procState := by
  rcases cfg with ⟨T, n, t, mi, mc, h⟩
  cases t <;> rfl

/-- One step advances every trajectory's elapsed time by exactly
step_size. -/
theorem step_traj_time (cfg : TradingConfig) (o : StepOracle) (a : List ℚ)
    (s : TrajState) :
    (step_traj cfg o a s).1.time = s.time + cfg.step_size := by
  have h : (step_traj cfg o a s).1.time
      = (update_agent_state_unclipped cfg o s
          (step_arrivals_fills cfg s o a).1 (step_arrivals_fills cfg s o a).2
          a).time + cfg.step_size := rfl
  rw [h, update_agent_state_unclipped_time]

/-- One step rewrites the process columns with the composed process
update applied to the pre-step process columns. -/
theorem step_traj_procState (cfg : TradingConfig) (o : StepOracle) (a : List ℚ)
    (s : TrajState) :
    (step_traj cfg o a s).1.procState = o.procUpdate s.procState := by
  have h : (step_traj cfg o a s).1.procState
      = o.procUpdate (update_agent_state_unclipped cfg o s
          (step_arrivals_fills cfg s o a).1 (step_arrivals_fills cfg s o a).2
          a).procState := rfl
  rw [h, update_agent_state_unclipped_procState]

/-- For the market-making regimes the consumed arrivals/fills pair is the
one from self._get_arrivals_and_fills. -/
theorem step_arrivals_fills_mm (cfg : TradingConfig) (s : TrajState)
    (o : StepOracle) (a : List ℚ)
    (h : cfg.action_type ∈ MARKET_MAKING_ACTION_TYPES) :
    step_arrivals_fills cfg s o a = get_arrivals_and_fills cfg s o a :=
  if_pos h

end Lemmas

/-- C1: for every configuration with nonnegative bounds and every
trajectory in the batch, after any call to step the trajectory's
inventory lies in [-max_inventory, max_inventory] and its cash lies in
[-max_cash, max_cash]; moreover the stepped values are exactly the
in-place clips of the agent-state update (the clip is applied after the
update, reported as a non-fatal logged event, and the simulation
continues with the clipped value). -/
theorem step_clipping_invariant (cfg : TradingConfig)
    (hI : 0 ≤ cfg.max_inventory) (hC : 0 ≤ cfg.max_cash)
    (states : List TrajState) (inputs : List (List ℚ × StepOracle)) :
    (∀ s' ∈ (step_batch cfg states inputs).1,
      ((-cfg.max_inventory ≤ s'.inventory ∧ s'.inventory ≤ cfg.max_inventory) ∧
       (-cfg.max_cash ≤ s'.cash ∧ s'.cash ≤ cfg.max_cash))) ∧
    (∀ p ∈ states.zip inputs,
      (step_traj cfg p.2.2 p.2.1 p.1).1.inventory
        = np_clip (update_agent_state_unclipped cfg p.2.2 p.1
            (step_arrivals_fills cfg p.1 p.2.2 p.2.1).1
            (step_arrivals_fills cfg p.1 p.2.2 p.2.1).2 p.2.1).inventory
            (-cfg.max_inventory) cfg.max_inventory) := by
  constructor
  · intro s' hs'
    have hmem : ∃ p ∈ states.zip inputs, (step_traj cfg p.2.2 p.2.1 p.1).1 = s' := by
      simpa [step_batch] using hs'
    obtain ⟨p, _, rfl⟩ := hmem
    refine ⟨⟨?_, ?_⟩, ⟨?_, ?_⟩⟩
    · rw [step_traj_inventory]
      exact le_np_clip _ _ _ (by linarith)
    · rw [step_traj_inventory]
      exact np_clip_le _ _ _
    · rw [step_traj_cash]
      exact le_np_clip _ _ _ (by linarith)
    · rw [step_traj_cash]
      exact np_clip_le _ _ _
  · intro p _
    exact step_traj_inventory cfg p.2.2 p.2.1 p.1

/-- Witness for C1: in the concrete limit-regime fixture the stepped
trajectory (whose inventory started at 10, beyond the bound 5) obeys
both bounds. -/
theorem step_clipping_invariant_witness :
    0 ≤ cfg_limit_w.max_inventory ∧ 0 ≤ cfg_limit_w.max_cash ∧
    ((-cfg_limit_w.max_inventory
        ≤ (step_traj cfg_limit_w oracle_ones_w [1, 1] ⟨0, 10, 0, [50]⟩).1.inventory ∧
      (step_traj cfg_limit_w oracle_ones_w [1, 1] ⟨0, 10, 0, [50]⟩).1.inventory
        ≤ cfg_limit_w.max_inventory) ∧
     (-cfg_limit_w.max_cash
        ≤ (step_traj cfg_limit_w oracle_ones_w [1, 1] ⟨0, 10, 0, [50]⟩).1.cash ∧
      (step_traj cfg_limit_w oracle_ones_w [1, 1] ⟨0, 10, 0, [50]⟩).1.cash
        ≤ cfg_limit_w.max_cash)) :=
  ⟨by norm_num [cfg_limit_w], by norm_num [cfg_limit_w],
   (step_clipping_invariant cfg_limit_w (by norm_num [cfg_limit_w])
      (by norm_num [cfg_limit_w]) states_w inputs_w).1 _
      (by simp [step_batch, states_w, inputs_w])⟩

/-- C2: in every arrival-driven regime, when a trajectory's inventory is
already at (or above) +max_inventory, the bid (buy-side) fill returned
by self._get_arrivals_and_fills is zero — whatever fill probability the
fill model returned, even probability 1 — and symmetrically the ask
(sell-side) fill is zero at (or below) -max_inventory; consequently, in
the touch and limit regimes the agent-state update's inventory (before
any clipping, so this is suppression of the fill itself rather than a
post-hoc clip) cannot move past the bound. -/
theorem fill_suppression_at_inventory_bounds (cfg : TradingConfig)
    (o : StepOracle) (a : List ℚ) (s : TrajState)
    (hmm : cfg.action_type ∈ MARKET_MAKING_ACTION_TYPES) :
    ((cfg.max_inventory ≤ s.inventory →
        (get_arrivals_and_fills cfg s o a).2.1 = 0) ∧
     (s.inventory ≤ -cfg.max_inventory →
        (get_arrivals_and_fills cfg s o a).2.2 = 0)) ∧
    ((cfg.action_type = ActionType.touch ∨ cfg.action_type = ActionType.limit) →
      ((0 ≤ o.arrivals.2 → 0 ≤ (raw_fills cfg o a).2 →
          cfg.max_inventory ≤ s.inventory →
          (update_agent_state_unclipped cfg o s (get_arrivals_and_fills cfg s o a).1
              (get_arrivals_and_fills cfg s o a).2 a).inventory ≤ s.inventory) ∧
       (0 ≤ o.arrivals.1 → 0 ≤ (raw_fills cfg o a).1 →
          s.inventory ≤ -cfg.max_inventory →
          s.inventory ≤ (update_agent_state_unclipped cfg o s
              (get_arrivals_and_fills cfg s o a).1
              (get_arrivals_and_fills cfg s o a).2 a).inventory))) := by
  have hbid : cfg.max_inventory ≤ s.inventory →
      (get_arrivals_and_fills cfg s o a).2.1 = 0 := by
    intro h
    simp [get_arrivals_and_fills, remove_max_inventory_fills, is_at_max_inventory, h]
  have hask : s.inventory ≤ -cfg.max_inventory →
      (get_arrivals_and_fills cfg s o a).2.2 = 0 := by
    intro h
    simp [get_arrivals_and_fills, remove_max_inventory_fills, is_at_min_inventory, h]
  have hbid_nonneg : 0 ≤ (raw_fills cfg o a).1 →
      0 ≤ (get_arrivals_and_fills cfg s o a).2.1 := by
    intro h
    simp only [get_arrivals_and_fills, remove_max_inventory_fills]
    positivity
  have hask_nonneg : 0 ≤ (raw_fills cfg o a).2 →
      0 ≤ (get_arrivals_and_fills cfg s o a).2.2 := by
    intro h
    simp only [get_arrivals_and_fills, remove_max_inventory_fills]
    positivity
  refine ⟨⟨hbid, hask⟩, ?_⟩
  rintro (ht | hl)
  · constructor
    · intro ha2 hf2 hmax
      have h1 := hbid hmax
      have h2 := mul_nonneg ha2 (hask_nonneg hf2)
      rcases cfg with ⟨T, n, t, mi, mc, hsp⟩
      cases t <;> simp_all [update_agent_state_unclipped, get_arrivals_and_fills]
    · intro ha1 hf1 hmin
      have h1 := hask hmin
      have h2 := mul_nonneg ha1 (hbid_nonneg hf1)
      rcases cfg with ⟨T, n, t, mi, mc, hsp⟩
      cases t <;> simp_all [update_agent_state_unclipped, get_arrivals_and_fills]
  · constructor
    · intro ha2 hf2 hmax
      have h1 := hbid hmax
      have h2 := mul_nonneg ha2 (hask_nonneg hf2)
      rcases cfg with ⟨T, n, t, mi, mc, hsp⟩
      cases t <;> simp_all [update_agent_state_unclipped, get_arrivals_and_fills]
    · intro ha1 hf1 hmin
      have h1 := hask hmin
      have h2 := mul_nonneg ha1 (hbid_nonneg hf1)
      rcases cfg with ⟨T, n, t, mi, mc, hsp⟩
      cases t <;> simp_all [update_agent_state_unclipped, get_arrivals_and_fills]

/-- Witness for C2: in the concrete touch-regime fixture with inventory
exactly at max_inventory = 5 and a fill model returning probability 1 on
both sides, the suppressed bid fill is 0 and the unclipped agent update
does not raise the inventory. -/
theorem fill_suppression_witness :
    cfg_touch_w.action_type ∈ MARKET_MAKING_ACTION_TYPES ∧
    cfg_touch_w.max_inventory ≤ (5 : ℚ) ∧
    (get_arrivals_and_fills cfg_touch_w ⟨0, 5, 0, [50]⟩ oracle_ones_w [1, 1]).2.1 = 0 ∧
    (update_agent_state_unclipped cfg_touch_w oracle_ones_w ⟨0, 5, 0, [50]⟩
        (get_arrivals_and_fills cfg_touch_w ⟨0, 5, 0, [50]⟩ oracle_ones_w [1, 1]).1
        (get_arrivals_and_fills cfg_touch_w ⟨0, 5, 0, [50]⟩ oracle_ones_w [1, 1]).2
        [1, 1]).inventory ≤ 5 := by
  have h := fill_suppression_at_inventory_bounds cfg_touch_w oracle_ones_w [1, 1]
      ⟨0, 5, 0, [50]⟩ (by decide)
  exact ⟨by decide, by decide, h.1.1 (by decide),
    (h.2 (Or.inl rfl)).1 (by decide) (by decide) (by decide)⟩

/-- C3: the agent-state update runs strictly before the processes are
advanced, and execution prices use the pre-update midprice: in the limit
regime the stepped cash is the (clipped) old cash plus the signed sum
over bid/ask of arrivals × fills × (pre-step midprice ∓ posted depth),
in the touch regime the same with the half spread; the process columns
(midprice included) are only rewritten afterwards, by the process update
applied to the pre-step columns. -/
theorem agent_update_uses_prestep_midprice (cfg : TradingConfig)
    (o : StepOracle) (a : List ℚ) (s : TrajState) :
    (cfg.action_type = ActionType.limit →
      (step_traj cfg o a s).1.cash
        = np_clip (s.cash
            + (-(o.arrivals.1 * (get_arrivals_and_fills cfg s o a).2.1
                  * (s.midprice - (limit_depths a).1))
               + o.arrivals.2 * (get_arrivals_and_fills cfg s o a).2.2
                  * (s.midprice + (limit_depths a).2)))
            (-cfg.max_cash) cfg.max_cash) ∧
    (cfg.action_type = ActionType.touch →
      (step_traj cfg o a s).1.cash
        = np_clip (s.cash
            + (-(o.arrivals.1 * (get_arrivals_and_fills cfg s o a).2.1
                  * (s.midprice - cfg.half_spread))
               + o.arrivals.2 * (get_arrivals_and_fills cfg s o a).2.2
                  * (s.midprice + cfg.half_spread)))
            (-cfg.max_cash) cfg.max_cash) ∧
    (step_traj cfg o a s).1.procState = o.procUpdate s.procState := by
  refine ⟨?_, ?_, step_traj_procState cfg o a s⟩
  · intro h
    rw [step_traj_cash,
      step_arrivals_fills_mm _ _ _ _ (by simp [MARKET_MAKING_ACTION_TYPES, h])]
    congr 1
    rcases cfg with ⟨T, n, t, mi, mc, hsp⟩
    cases h
    simp [update_agent_state_unclipped, get_arrivals_and_fills]
  · intro h
    rw [step_traj_cash,
      step_arrivals_fills_mm _ _ _ _ (by simp [MARKET_MAKING_ACTION_TYPES, h])]
    congr 1
    rcases cfg with ⟨T, n, t, mi, mc, hsp⟩
    cases h
    simp [update_agent_state_unclipped, get_arrivals_and_fills]

/-- Witness for C3: the pre-step-midprice cash formula evaluated on the
concrete limit-regime fixture. -/
theorem agent_update_uses_prestep_midprice_witness :
    cfg_limit_w.action_type = ActionType.limit ∧
    (step_traj cfg_limit_w oracle_ones_w [1, 1] ⟨0, 0, 0, [50]⟩).1.cash
      = np_clip ((0 : ℚ)
          + (-(oracle_ones_w.arrivals.1
                * (get_arrivals_and_fills cfg_limit_w ⟨0, 0, 0, [50]⟩
                    oracle_ones_w [1, 1]).2.1
                * ((50 : ℚ) - (limit_depths [1, 1]).1))
             + oracle_ones_w.arrivals.2
                * (get_arrivals_and_fills cfg_limit_w ⟨0, 0, 0, [50]⟩
                    oracle_ones_w [1, 1]).2.2
                * ((50 : ℚ) + (limit_depths [1, 1]).2)))
          (-cfg_limit_w.max_cash) cfg_limit_w.max_cash :=
  ⟨rfl, (agent_update_uses_prestep_midprice cfg_limit_w oracle_ones_w [1, 1]
      ⟨0, 0, 0, [50]⟩).1 rfl⟩

theorem headD_mem {α : Type} [Inhabited α] {l : List α} (h : l ≠ []) :
    l.headD default ∈ l := by
  cases l with
  | nil => exact absurd rfl h
  | cons x xs => exact List.mem_cons_self _ _

theorem step_batch_length (cfg : TradingConfig) (states : List TrajState)
    (inputs : List (List ℚ × StepOracle)) :
    (step_batch cfg states inputs).1.length = min states.length inputs.length := by
  simp [step_batch]

theorem run_steps_length (cfg : TradingConfig)
    (ins : ℕ → List (List ℚ × StepOracle)) (s0 : List TrajState) (m : ℕ)
    (hlen0 : s0.length = m) (hlen : ∀ k, (ins k).length = m) :
    ∀ k, (run_steps cfg ins s0 k).length = m := by
  intro k
  induction k with
  | zero => simpa [run_steps] using hlen0
  | succ k ih => simp [run_steps, step_batch_length, ih, hlen]

/-- After k steps from a batch whose trajectories start at time 0, every
trajectory's elapsed time is exactly k times the step size. -/
theorem run_steps_time (cfg : TradingConfig)
    (ins : ℕ → List (List ℚ × StepOracle)) (s0 : List TrajState)
    (ht0 : ∀ s ∈ s0, s.time = 0) :
    ∀ k, ∀ s' ∈ run_steps cfg ins s0 k, s'.time = (k : ℚ) * cfg.step_size := by
  intro k
  induction k with
  | zero =>
      intro s' hs'
      simpa using ht0 s' hs'
  | succ k ih =>
      intro s' hs'
      have hmem : ∃ p ∈ (run_steps cfg ins s0 k).zip (ins k),
          (step_traj cfg p.2.2 p.2.1 p.1).1 = s' := by
        simpa [run_steps, step_batch] using hs'
      obtain ⟨p, hp, rfl⟩ := hmem
      rw [step_traj_time, ih p.1 (List.of_mem_zip hp).1]
      push_cast
      ring

/-- C4: for an environment with start time 0 and a fresh batch, calling
step n_steps times yields done = false on each of the first n_steps - 1
calls and done = true on the n_steps-th call, where done compares the
elapsed time of trajectory 0 with terminal_time minus half a step size;
on every call the dones array repeats one flag for the whole batch. -/
theorem episode_done_flags (cfg : TradingConfig) (s0 : List TrajState)
    (ins : ℕ → List (List ℚ × StepOracle)) (m : ℕ) (hm : 0 < m)
    (hlen0 : s0.length = m) (hlen : ∀ k, (ins k).length = m)
    (ht0 : ∀ s ∈ s0, s.time = 0) (hn : 0 < cfg.n_steps)
    (hT : 0 < cfg.terminal_time) :
    ∀ j, j < cfg.n_steps →
      dones_at cfg ins s0 j = List.replicate m (decide (j + 1 = cfg.n_steps)) := by
  intro j hj
  have hss : 0 < cfg.step_size :=
    div_pos hT (by exact_mod_cast hn)
  have hrl : (run_steps cfg ins s0 (j + 1)).length = m :=
    run_steps_length cfg ins s0 m hlen0 hlen (j + 1)
  have hne : run_steps cfg ins s0 (j + 1) ≠ [] := by
    intro h
    rw [h] at hrl
    simp at hrl
    omega
  have htime : ((run_steps cfg ins s0 (j + 1)).headD default).time
      = ((j + 1 : ℕ) : ℚ) * cfg.step_size :=
    run_steps_time cfg ins s0 ht0 (j + 1) _ (headD_mem hne)
  have hrep : dones_at cfg ins s0 j
      = List.replicate (run_steps cfg ins s0 (j + 1)).length
          (decide (cfg.terminal_time - cfg.step_size / 2
            ≤ ((run_steps cfg ins s0 (j + 1)).headD default).time)) := rfl
  have hTn : cfg.terminal_time = (cfg.n_steps : ℚ) * cfg.step_size := by
    rw [TradingConfig.step_size]
    field_simp
  have hiff : (cfg.terminal_time - cfg.step_size / 2
      ≤ ((j + 1 : ℕ) : ℚ) * cfg.step_size) ↔ (j + 1 = cfg.n_steps) := by
    constructor
    · intro h
      by_contra hne'
      have hlt : j + 1 < cfg.n_steps := lt_of_le_of_ne (by omega) hne'
      have hc : ((j + 1 : ℕ) : ℚ) + 1 ≤ (cfg.n_steps : ℚ) := by
        exact_mod_cast hlt
      rw [hTn] at h
      nlinarith
    · intro h
      rw [hTn, ← h]
      push_cast
      nlinarith
  rw [hrep, hrl, htime, decide_eq_decide.mpr hiff]

/-- Witness for C4: with the two-step fixture, the first call to step
returns done = false and the second returns done = true, each repeated
over the (single-trajectory) batch. -/
theorem episode_done_flags_witness :
    dones_at cfg_limit_w (fun _ => inputs_w) s0_episode_w 0 = [false] ∧
    dones_at cfg_limit_w (fun _ => inputs_w) s0_episode_w 1 = [true] := by
  have h := episode_done_flags cfg_limit_w s0_episode_w (fun _ => inputs_w) 1
    (by decide) rfl (fun _ => rfl) (by decide) (by decide) (by decide)
  constructor
  · simpa using h 0 (by decide)
  · simpa using h 1 (by decide)

/-- Element j of the seeding loop carries the derived seed v + i + j + 1
when the loop starts its enumeration at i. -/
theorem seed_processes_get (v : ℤ) :
    ∀ (l : List ProcessState) (i j : ℕ),
      (seed_processes v i l)[j]?
        = l[j]?.map (fun p => p.seed_with (v + i + j + 1)) := by
  intro l
  induction l with
  | nil => intro i j; simp [seed_processes]
  | cons p ps ih =>
      intro i j
      cases j with
      | zero => simp [seed_processes]
      | succ j =>
          simp only [seed_processes, List.getElem?_cons_succ]
          rw [ih (i + 1) j]
          have harg : v + ((i : ℤ) + 1) + j + 1 = v + i + ((j : ℤ) + 1) + 1 := by
            ring
          simp [ProcessState.seed_with, harg]

/-- Seeding then resetting erases every pre-existing difference between
two process registries of equal length. -/
theorem seed_processes_reset_eq (rm : RandomModel) (v : ℤ) :
    ∀ (l l' : List ProcessState) (i : ℕ), l.length = l'.length →
      (seed_processes v i l).map (ProcessState.reset_proc rm)
        = (seed_processes v i l').map (ProcessState.reset_proc rm) := by
  intro l
  induction l with
  | nil =>
      intro l' i h
      cases l' with
      | nil => rfl
      | cons q qs => simp at h
  | cons p ps ih =>
      intro l' i h
      cases l' with
      | nil => simp at h
      | cons q qs =>
          simp only [seed_processes, List.map_cons]
          exact congrArg₂ (· :: ·) rfl (ih qs (i + 1) (by simpa using h))

/-- self.initial_state never reads the mutable state rows. -/
theorem build_initial_state_state_irrel (rm : RandomModel)
    (c : TradingConfig) (c0 : ℚ) (ii : InitialInventory) (m : ℕ) (rs : ℚ)
    (r : EngineRng) (P : List ProcessState) (st st' : List TrajState) :
    SeededEnv.build_initial_state rm ⟨c, c0, ii, m, rs, r, P, st⟩
      = SeededEnv.build_initial_state rm ⟨c, c0, ii, m, rs, r, P, st'⟩ := rfl

/-- C5: two-run determinism — for any two environment instances sharing
the same configuration (whatever their current mutable internals: engine
rng position, process seeds/counters/states, state rows), seeding with
the same seed and resetting yields identical state-vector trajectories
over a full episode of steps with identical actions; and seeding derives
process j's seed as base seed + j + 1. -/
theorem same_seed_same_trajectories (rm : RandomModel) (e e' : SeededEnv)
    (v : ℤ) (acts : List (List (List ℚ)))
    (hc : e.config = e'.config) (hcash : e.initial_cash = e'.initial_cash)
    (hii : e.initial_inventory = e'.initial_inventory)
    (hm : e.num_trajectories = e'.num_trajectories)
    (hrs : e.random_start = e'.random_start)
    (hp : e.processes.length = e'.processes.length) :
    run_episode rm e v acts = run_episode rm e' v acts ∧
    (∀ j : ℕ, (e.seed_env v).processes[j]?
        = e.processes[j]?.map (fun p => p.seed_with (v + j + 1))) := by
  constructor
  · have hkey : (e.seed_env v).reset_env rm = (e'.seed_env v).reset_env rm := by
      rcases e with ⟨c, c0, ii, m, rs, r, P, st⟩
      rcases e' with ⟨c', c0', ii', m', rs', r', P', st'⟩
      dsimp only at hc hcash hii hm hrs hp
      subst hc
      subst hcash
      subst hii
      subst hm
      subst hrs
      show SeededEnv.build_initial_state rm
          ⟨c, c0, ii, m, rs, ⟨some v, 0⟩,
            (seed_processes v 0 P).map (ProcessState.reset_proc rm), st⟩
        = SeededEnv.build_initial_state rm
          ⟨c, c0, ii, m, rs, ⟨some v, 0⟩,
            (seed_processes v 0 P').map (ProcessState.reset_proc rm), st'⟩
      rw [seed_processes_reset_eq rm v P P' 0 hp]
      exact build_initial_state_state_irrel rm c c0 ii m rs ⟨some v, 0⟩ _ st st'
    unfold run_episode
    rw [hkey]
  · intro j
    have h := seed_processes_get v e.processes 0 j
    simpa using h

/-- Witness for C5: two concrete environments with the same configuration
but different mutated internals produce identical two-step episodes after
seeding with 7 and resetting. -/
theorem same_seed_same_trajectories_witness :
    env_run_a.config = env_run_b.config ∧
    run_episode rm_w env_run_a 7 [[[1, 1]], [[2, 0]]]
      = run_episode rm_w env_run_b 7 [[[1, 1]], [[2, 0]]] :=
  ⟨rfl, (same_seed_same_trajectories rm_w env_run_a env_run_b 7
      [[[1, 1]], [[2, 0]]] rfl rfl rfl rfl rfl rfl).1⟩

/-- With a zero speed action the regime-specific agent update is the
identity on the trajectory row. -/
theorem update_agent_state_unclipped_speed_zero (cfg : TradingConfig)
    (o : StepOracle) (s : TrajState) (arrivals fills : ℚ × ℚ) (a : List ℚ)
    (hsp : cfg.action_type = ActionType.speed) (ha : speed_action a = 0) :
    update_agent_state_unclipped cfg o s arrivals fills a = s := by
  rcases cfg with ⟨T, n, t, mi, mc, h⟩
  cases hsp
  simp [update_agent_state_unclipped, ha]

/-- Counterexample for C6: in the speed regime with action 0 and a
(deterministically drifting) midprice model, the asset-price column of
the state vector changes over the step, so the state is not unchanged
except for time. -/
theorem speed_zero_action_cex :
    speed_action [0] = 0 ∧
    (step_traj cfg_speed_w oracle_drift_w [0] ⟨0, 0, 0, [100]⟩).1.procState
      ≠ (⟨0, 0, 0, [100]⟩ : TrajState).procState := by
  constructor
  · rfl
  · intro h
    rw [step_traj_procState] at h
    norm_num [oracle_drift_w, brownian_drift_update] at h

/-- C6 amended: in the speed regime a step with action 0 leaves cash and
inventory unchanged (provided they already respect their bounds) and
advances elapsed time by exactly one step size; the process columns of
the state vector, however, are rewritten by the configured processes'
own updates and need not be unchanged. -/
theorem speed_zero_action_noop (cfg : TradingConfig) (o : StepOracle)
    (a : List ℚ) (s : TrajState) (hsp : cfg.action_type = ActionType.speed)
    (ha : speed_action a = 0)
    (hc1 : -cfg.max_cash ≤ s.cash) (hc2 : s.cash ≤ cfg.max_cash)
    (hi1 : -cfg.max_inventory ≤ s.inventory)
    (hi2 : s.inventory ≤ cfg.max_inventory) :
    (step_traj cfg o a s).1.cash = s.cash ∧
    (step_traj cfg o a s).1.inventory = s.inventory ∧
    (step_traj cfg o a s).1.time = s.time + cfg.step_size ∧
    (step_traj cfg o a s).1.procState = o.procUpdate s.procState := by
  have hu : update_agent_state_unclipped cfg o s
      (step_arrivals_fills cfg s o a).1 (step_arrivals_fills cfg s o a).2 a = s :=
    update_agent_state_unclipped_speed_zero cfg o s _ _ a hsp ha
  refine ⟨?_, ?_, step_traj_time cfg o a s, step_traj_procState cfg o a s⟩
  · rw [step_traj_cash, hu, np_clip, max_eq_left hc1, min_eq_left hc2]
  · rw [step_traj_inventory, hu, np_clip, max_eq_left hi1, min_eq_left hi2]

/-- Witness for C6 (amended): the concrete zero-action speed step keeps
cash and inventory and advances time by 1/10. -/
theorem speed_zero_action_noop_witness :
    (step_traj cfg_speed_w oracle_drift_w [0] ⟨0, 0, 0, [100]⟩).1.cash = 0 ∧
    (step_traj cfg_speed_w oracle_drift_w [0] ⟨0, 0, 0, [100]⟩).1.inventory = 0 ∧
    (step_traj cfg_speed_w oracle_drift_w [0] ⟨0, 0, 0, [100]⟩).1.time
      = 0 + cfg_speed_w.step_size := by
  have h := speed_zero_action_noop cfg_speed_w oracle_drift_w [0] ⟨0, 0, 0, [100]⟩
    rfl rfl (by decide) (by decide) (by decide) (by decide)
  exact ⟨h.1, h.2.1, h.2.2.1⟩

/-- np.round never moves a value by more than one floor step. -/
theorem round_half_even_bounds (q : ℚ) :
    ⌊q⌋ ≤ round_half_even q ∧ round_half_even q ≤ ⌊q⌋ + 1 := by
  unfold round_half_even
  split_ifs <;> omega

/-- A failed start-time assertion propagates out of self.initial_state. -/
theorem build_initial_state_start_error (rm : RandomModel) (e : SeededEnv)
    (hq : quantise_time_to_step e.config e.random_start
      = Except.error EnvError.bad_start_time) :
    SeededEnv.build_initial_state rm e = Except.error EnvError.bad_start_time := by
  unfold SeededEnv.build_initial_state
  rw [hq]

/-- Every row built by self.initial_state carries the quantised start
time. -/
theorem build_initial_state_times (rm : RandomModel) (e : SeededEnv) (t0 : ℚ)
    (hq : quantise_time_to_step e.config e.random_start = Except.ok t0) :
    ∀ e0, SeededEnv.build_initial_state rm e = Except.ok e0 →
      ∀ s ∈ e0.state, s.time = t0 := by
  intro e0 he0 s hs
  unfold SeededEnv.build_initial_state at he0
  rw [hq] at he0
  cases hgi : get_initial_inventories rm e with
  | error err => rw [hgi] at he0; cases he0
  | ok invs =>
      rw [hgi] at he0
      cases he0
      obtain ⟨q, _, rfl⟩ := List.mem_map.mp hs
      rfl

/-- C9 amended: at reset, a resolved start time outside
[0, terminal_time) is a fatal assertion failure surfaced immediately;
otherwise the initial elapsed time of every trajectory equals the
resolved value snapped to the nearest multiple of the step size, and the
snapped value lies in the closed interval [0, terminal_time] — it can
equal terminal_time, so the claim's half-open upper bound [0,
terminal_time) does not hold for the snapped value. -/
theorem start_time_resolution (rm : RandomModel) (e : SeededEnv)
    (hn : 0 < e.config.n_steps) (hT : 0 < e.config.terminal_time) :
    (¬ (0 ≤ e.random_start ∧ e.random_start < e.config.terminal_time) →
       e.reset_env rm = Except.error EnvError.bad_start_time) ∧
    (∀ t0, quantise_time_to_step e.config e.random_start = Except.ok t0 →
       (0 ≤ t0 ∧ t0 ≤ e.config.terminal_time) ∧
       (∀ e0, e.reset_env rm = Except.ok e0 → ∀ s ∈ e0.state, s.time = t0)) := by
  have hss : 0 < e.config.step_size :=
    div_pos hT (by exact_mod_cast hn)
  have hTn : e.config.terminal_time
      = (e.config.n_steps : ℚ) * e.config.step_size := by
    rw [TradingConfig.step_size]
    field_simp
  constructor
  · intro h
    have hq : quantise_time_to_step e.config e.random_start
        = Except.error EnvError.bad_start_time := by
      unfold quantise_time_to_step
      rw [if_neg h]
    exact build_initial_state_start_error rm _ hq
  · intro t0 hq
    have hcond : 0 ≤ e.random_start ∧ e.random_start < e.config.terminal_time := by
      by_contra h
      unfold quantise_time_to_step at hq
      rw [if_neg h] at hq
      cases hq
    have ht0 : t0 = (round_half_even (e.random_start / e.config.step_size) : ℚ)
        * e.config.step_size := by
      unfold quantise_time_to_step at hq
      rw [if_pos hcond] at hq
      cases hq
      rfl
    obtain ⟨hb1, hb2⟩ := round_half_even_bounds (e.random_start / e.config.step_size)
    have hfl : 0 ≤ ⌊e.random_start / e.config.step_size⌋ :=
      Int.floor_nonneg.mpr (div_nonneg hcond.1 hss.le)
    have hlt : e.random_start / e.config.step_size < (e.config.n_steps : ℚ) := by
      rw [div_lt_iff₀ hss]
      calc e.random_start < e.config.terminal_time := hcond.2
        _ = (e.config.n_steps : ℚ) * e.config.step_size := hTn
    have hfl2 : ⌊e.random_start / e.config.step_size⌋ < (e.config.n_steps : ℤ) :=
      Int.floor_lt.mpr (by exact_mod_cast hlt)
    refine ⟨⟨?_, ?_⟩, ?_⟩
    · rw [ht0]
      have : (0 : ℚ) ≤ (round_half_even (e.random_start / e.config.step_size) : ℚ) := by
        exact_mod_cast le_trans hfl hb1
      exact mul_nonneg this hss.le
    · rw [ht0, hTn]
      have : (round_half_even (e.random_start / e.config.step_size) : ℚ)
          ≤ (e.config.n_steps : ℚ) := by
        exact_mod_cast (by omega : round_half_even (e.random_start / e.config.step_size)
          ≤ (e.config.n_steps : ℤ))
      exact mul_le_mul_of_nonneg_right this hss.le
    · intro e0 he0
      exact build_initial_state_times rm
        { e with processes := e.processes.map (ProcessState.reset_proc rm) }
        t0 hq e0 he0

/-- With terminal_time 1 and step size 1/2, the start time 9/10 passes
the assertion and snaps to 1. -/
theorem quantise_nine_tenths :
    quantise_time_to_step cfg_limit_w (9 / 10) = Except.ok 1 := by
  have hss : cfg_limit_w.step_size = 1 / 2 := by
    norm_num [cfg_limit_w, TradingConfig.step_size]
  have hdiv : (9 : ℚ) / 10 / cfg_limit_w.step_size = 9 / 5 := by
    rw [hss]
    norm_num
  have hfloor : ⌊(9 : ℚ) / 5⌋ = 1 := by
    rw [Int.floor_eq_iff]
    norm_num
  have hrhe : round_half_even ((9 : ℚ) / 5) = 2 := by
    unfold round_half_even
    rw [hfloor]
    norm_num
  unfold quantise_time_to_step
  rw [if_pos (by norm_num [cfg_limit_w]), hdiv, hrhe, hss]
  norm_num

/-- Counterexample for C9: with terminal_time 1 and step size 1/2, the
resolved start time 9/10 passes the assertion but snaps to 1 =
terminal_time, which is outside [0, terminal_time). -/
theorem start_time_snap_cex :
    quantise_time_to_step cfg_limit_w (9 / 10) = Except.ok 1 ∧
    ¬ ((1 : ℚ) < cfg_limit_w.terminal_time) := by
  refine ⟨quantise_nine_tenths, ?_⟩
  norm_num [cfg_limit_w]

/-- Witness for C9 (amended): the concrete environment with start time
9/10 resolves to snapped time 1, which obeys 0 ≤ 1 ≤ terminal_time. -/
theorem start_time_resolution_witness :
    0 < env_q_w.config.n_steps ∧ 0 < env_q_w.config.terminal_time ∧
    ((0 : ℚ) ≤ 1 ∧ (1 : ℚ) ≤ env_q_w.config.terminal_time) := by
  have h := (start_time_resolution rm_w env_q_w (by decide) (by decide)).2 1
    quantise_nine_tenths
  exact ⟨by decide, by decide, h.1⟩

/-- Under a valid start time and a well-formed initial inventory,
self.initial_state succeeds and touches neither the process registry nor
the engine rng's seed. -/
theorem build_initial_state_fields (rm : RandomModel) (e : SeededEnv)
    (hq : 0 ≤ e.random_start ∧ e.random_start < e.config.terminal_time)
    (hii : e.initial_inventory ≠ InitialInventory.malformed) :
    ∃ e', SeededEnv.build_initial_state rm e = Except.ok e' ∧
      e'.processes = e.processes ∧ e'.rng.seed = e.rng.seed := by
  have h1 : quantise_time_to_step e.config e.random_start
      = Except.ok ((round_half_even (e.random_start / e.config.step_size) : ℚ)
          * e.config.step_size) := by
    unfold quantise_time_to_step
    rw [if_pos hq]
  unfold SeededEnv.build_initial_state
  rw [h1]
  rcases e with ⟨c, c0, ii, m, rs, r, P, st⟩
  cases ii with
  | int_value n =>
      exact ⟨_, rfl, rfl, rfl⟩
  | pair lo hi =>
      exact ⟨_, rfl, rfl, rfl⟩
  | malformed => exact absurd rfl hii

/-- C10: constructing the environment with seed = 0 creates the engine
rng from 0 but skips the seed-propagation branch exactly as when no seed
is given — the constructed processes keep their pre-existing (underived)
seeds in both cases — whereas for every nonzero seed v process j
receives the derived seed v + j + 1. -/
theorem seed_zero_skips_process_seeding (rm : RandomModel)
    (cfg : TradingConfig) (c0 : ℚ) (ii : InitialInventory) (m : ℕ) (rs : ℚ)
    (procs : List ProcessState)
    (hq : 0 ≤ rs ∧ rs < cfg.terminal_time)
    (hii : ii ≠ InitialInventory.malformed) :
    (∃ e0, init_env rm cfg c0 ii m rs procs (some 0) = Except.ok e0 ∧
       e0.rng.seed = some 0 ∧ e0.processes = procs) ∧
    (∃ en, init_env rm cfg c0 ii m rs procs none = Except.ok en ∧
       en.processes = procs) ∧
    (∀ v : ℤ, v ≠ 0 →
      ∃ ev, init_env rm cfg c0 ii m rs procs (some v) = Except.ok ev ∧
        ∀ j : ℕ, ev.processes[j]?
          = procs[j]?.map (fun p => p.seed_with (v + j + 1))) := by
  refine ⟨?_, ?_, ?_⟩
  · obtain ⟨e', h1, h2, h3⟩ := build_initial_state_fields rm
      ⟨cfg, c0, ii, m, rs, ⟨some 0, 0⟩, procs, []⟩ hq hii
    exact ⟨e', h1, h3, h2⟩
  · obtain ⟨e', h1, h2, h3⟩ := build_initial_state_fields rm
      ⟨cfg, c0, ii, m, rs, ⟨none, 0⟩, procs, []⟩ hq hii
    exact ⟨e', h1, h2⟩
  · intro v hv
    obtain ⟨e', h1, h2, h3⟩ := build_initial_state_fields rm
      (SeededEnv.seed_env ⟨cfg, c0, ii, m, rs, ⟨some v, 0⟩, procs, []⟩ v) hq hii
    refine ⟨e', ?_, ?_⟩
    · rw [← h1]
      unfold init_env
      dsimp only
      rw [if_pos hv]
    · intro j
      rw [h2]
      have h := seed_processes_get v procs 0 j
      simpa using h

/-- Witness for C10: with the concrete fixture, constructing with seed 0
and constructing with no seed both leave the two processes unseeded. -/
theorem seed_zero_skips_process_seeding_witness :
    ((init_env rm_w cfg_limit_w 0 (InitialInventory.int_value 2) 1 0 procs_w
        (some 0)).toOption.map SeededEnv.processes) = some procs_w ∧
    ((init_env rm_w cfg_limit_w 0 (InitialInventory.int_value 2) 1 0 procs_w
        none).toOption.map SeededEnv.processes) = some procs_w := by
  have h := seed_zero_skips_process_seeding rm_w cfg_limit_w 0
    (InitialInventory.int_value 2) 1 0 procs_w (by norm_num [cfg_limit_w])
    (by simp)
  obtain ⟨⟨e0, h1, _, h3⟩, ⟨en, h4, h5⟩, _⟩ := h
  constructor
  · rw [h1]
    simp [Except.toOption, h3]
  · rw [h4]
    simp [Except.toOption, h5]

/-- The step_size propagation loop gives every process the new value. -/
theorem propagate_step_size_sets (v : ℚ) :
    ∀ (l : List PropProcess) (i : ℕ),
      (propagate_step_size v i l).1
        = l.map (fun p => { p with step_size := v }) := by
  intro l
  induction l with
  | nil => intro i; rfl
  | cons p ps ih =>
      intro i
      cases p with
      | mk ss nt =>
          by_cases h : ss = v
          · subst h
            simp [propagate_step_size, ih]
          · simp [propagate_step_size, h, ih]

/-- The num_trajectories propagation loop gives every process the new
value. -/
theorem propagate_num_trajectories_sets (v : ℕ) :
    ∀ (l : List PropProcess) (i : ℕ),
      (propagate_num_trajectories v i l).1
        = l.map (fun p => { p with num_trajectories := v }) := by
  intro l
  induction l with
  | nil => intro i; rfl
  | cons p ps ih =>
      intro i
      cases p with
      | mk ss nt =>
          by_cases h : nt = v
          · subst h
            simp [propagate_num_trajectories, ih]
          · simp [propagate_num_trajectories, h, ih]

/-- Every notice of the step_size propagation loop names a process. -/
theorem propagate_step_size_notices (v : ℚ) :
    ∀ (l : List PropProcess) (i : ℕ) (x : Notice),
      x ∈ (propagate_step_size v i l).2 → ∃ k, x = Notice.process k := by
  intro l
  induction l with
  | nil => intro i x hx; simp [propagate_step_size] at hx
  | cons p ps ih =>
      intro i x hx
      by_cases h : p.step_size = v
      · simp [propagate_step_size, if_neg (not_not_intro h)] at hx
        exact ih (i + 1) x hx
      · simp [propagate_step_size, if_pos h, List.mem_cons] at hx
        rcases hx with rfl | hx
        · exact ⟨i, rfl⟩
        · exact ih (i + 1) x hx

/-- Every notice of the num_trajectories propagation loop names a
process. -/
theorem propagate_num_trajectories_notices (v : ℕ) :
    ∀ (l : List PropProcess) (i : ℕ) (x : Notice),
      x ∈ (propagate_num_trajectories v i l).2 → ∃ k, x = Notice.process k := by
  intro l
  induction l with
  | nil => intro i x hx; simp [propagate_num_trajectories] at hx
  | cons p ps ih =>
      intro i x hx
      by_cases h : p.num_trajectories = v
      · simp [propagate_num_trajectories, if_neg (not_not_intro h)] at hx
        exact ih (i + 1) x hx
      · simp [propagate_num_trajectories, if_pos h, List.mem_cons] at hx
        rcases hx with rfl | hx
        · exact ⟨i, rfl⟩
        · exact ih (i + 1) x hx

/-- Counterexample for C7: setting num_trajectories on the concrete
fixture updates the process (printing one process notice) but issues no
notice for — and performs no update of — the reward function,
contradicting the claim that either setter propagates to the reward
function with a notice. -/
theorem setter_propagation_cex :
    (set_num_trajectories env_prop_w 2).2 = [Notice.process 0] ∧
    Notice.reward ∉ (set_num_trajectories env_prop_w 2).2 ∧
    (set_num_trajectories env_prop_w 2).1.reward_function
      = env_prop_w.reward_function := by
  refine ⟨by decide, by decide, rfl⟩

/-- C7 amended: setting step_size propagates the new value to every
configured process and — exactly when it tracks step size — to the
reward function, with a notice for the reward function in that case and
one per updated process; setting num_trajectories propagates only to the
configured processes: the reward function is untouched and no reward
notice is printed. -/
theorem setter_propagation (e : PropEnv) (v : ℚ) (m : ℕ) :
    ((set_step_size e v).1.processes
        = e.processes.map (fun p => { p with step_size := v })) ∧
    ((set_step_size e v).1.reward_function
        = (if e.reward_function.has_step_size then
            { e.reward_function with step_size := v }
          else e.reward_function)) ∧
    (e.reward_function.has_step_size = true
      ↔ Notice.reward ∈ (set_step_size e v).2) ∧
    ((set_num_trajectories e m).1.processes
        = e.processes.map (fun p => { p with num_trajectories := m })) ∧
    ((set_num_trajectories e m).1.reward_function = e.reward_function) ∧
    Notice.reward ∉ (set_num_trajectories e m).2 := by
  refine ⟨?_, ?_, ⟨?_, ?_⟩, ?_, rfl, ?_⟩
  · by_cases h : e.reward_function.has_step_size <;>
      simp [set_step_size, h, propagate_step_size_sets]
  · by_cases h : e.reward_function.has_step_size <;>
      simp [set_step_size, h]
  · intro h
    simp [set_step_size, h]
  · intro h
    by_cases hh : e.reward_function.has_step_size
    · exact hh
    · exfalso
      simp only [set_step_size, if_neg hh] at h
      obtain ⟨k, hk⟩ := propagate_step_size_notices v e.processes 0 _ h
      exact Notice.noConfusion hk
  · simp [set_num_trajectories, propagate_num_trajectories_sets]
  · intro h
    simp only [set_num_trajectories] at h
    obtain ⟨k, hk⟩ := propagate_num_trajectories_notices m e.processes 0 _ h
    exact Notice.noConfusion hk

/-- Witness for C7 (amended): on the concrete fixture, setting step_size
to 2 updates the process and the (step-size-tracking) reward function and
prints a reward notice. -/
theorem setter_propagation_witness :
    (set_step_size env_prop_w 2).1.processes = [⟨2, 1⟩] ∧
    (set_step_size env_prop_w 2).1.reward_function = ⟨true, 2⟩ ∧
    Notice.reward ∈ (set_step_size env_prop_w 2).2 := by
  have h := setter_propagation env_prop_w 2 2
  refine ⟨?_, ?_, h.2.2.1.mp rfl⟩
  · rw [h.1]
    rfl
  · rw [h.2.1]
    rfl

/-- C8: construction raises a fatal error when the action_type is
unsupported, when a process required by the chosen action_type is
missing (touch: arrival; limit family: arrival and fill-probability;
speed: price-impact), when a limit-family regime has no resolvable
max_depth, or when initial_inventory is neither an int nor a 2-tuple;
with a valid start time and all requirements satisfied, construction
succeeds. -/
theorem construction_validation (b : BuildInputs)
    (hs : 0 ≤ b.random_start ∧ b.random_start < b.terminal_time) :
    (b.action_type = RawActionType.unsupported →
       construct_env b = Except.error EnvError.unsupported_action_type) ∧
    (∀ p ∈ required_processes b.action_type, has_process b p = false →
       is_success (construct_env b) = false) ∧
    ((b.action_type = RawActionType.limit ∨
        b.action_type = RawActionType.limit_and_market) →
       resolved_max_depth b = none →
       is_success (construct_env b) = false) ∧
    (b.initial_inventory = InitialInventory.malformed →
       is_success (construct_env b) = false) ∧
    (b.action_type ≠ RawActionType.unsupported →
     (required_processes b.action_type).all (has_process b) = true →
     ((b.action_type = RawActionType.limit ∨
        b.action_type = RawActionType.limit_and_market) →
       (resolved_max_depth b).isSome = true) →
     b.initial_inventory ≠ InitialInventory.malformed →
     construct_env b = Except.ok ()) := by
  refine ⟨?_, ?_, ?_, ?_, ?_⟩
  · intro ht
    unfold construct_env check_required_stochastic_processes
    rw [if_pos ht]
  · intro p hp hmiss
    unfold construct_env check_required_stochastic_processes
    by_cases ht : b.action_type = RawActionType.unsupported
    · rw [if_pos ht]
      rfl
    · rw [if_neg ht]
      have hex : ∃ x ∈ required_processes b.action_type,
          (fun n => ! has_process b n) x := ⟨p, hp, by simp [hmiss]⟩
      obtain ⟨q, hq⟩ := Option.isSome_iff_exists.mp (List.find?_isSome.mpr hex)
      rw [hq]
      rfl
  · intro hor hmd
    unfold construct_env
    cases hcheck : check_required_stochastic_processes b with
    | error err => rfl
    | ok _ =>
        cases hinit : initial_state_check b with
        | error err => rfl
        | ok _ =>
            unfold get_action_space_check
            rcases hor with h | h <;>
              rw [h] <;> simp [hmd, is_success]
  · intro hii
    unfold construct_env
    cases hcheck : check_required_stochastic_processes b with
    | error err => rfl
    | ok _ =>
        have hinit : initial_state_check b
            = Except.error EnvError.bad_initial_inventory := by
          unfold initial_state_check
          rw [if_pos hs, hii]
        rw [hinit]
        rfl
  · intro h1 h2 h3 h4
    have hcheck : check_required_stochastic_processes b = Except.ok () := by
      unfold check_required_stochastic_processes
      rw [if_neg h1]
      have hfind : (required_processes b.action_type).find?
          (fun n => ! has_process b n) = none := by
        rw [List.find?_eq_none]
        intro x hx
        simp [List.all_eq_true.mp h2 x hx]
      rw [hfind]
    have hinit : initial_state_check b = Except.ok () := by
      unfold initial_state_check
      rw [if_pos hs]
      cases hii : b.initial_inventory with
      | int_value n => rfl
      | pair lo hi => rfl
      | malformed => exact absurd hii h4
    have hspace : get_action_space_check b = Except.ok () := by
      unfold get_action_space_check
      cases ht : b.action_type with
      | touch => rfl
      | speed => rfl
      | unsupported => rfl
      | limit =>
          rw [if_pos (h3 (Or.inl ht))]
      | limit_and_market =>
          rw [if_pos (h3 (Or.inr ht))]
    simp only [construct_env, hcheck, hinit]
    exact hspace

/-- Witness for C8: the well-formed limit fixture constructs
successfully, and the same fixture with an unsupported action type fails
with the unsupported-action-type assertion. -/
theorem construction_validation_witness :
    construct_env build_ok_w = Except.ok () ∧
    construct_env build_bad_w = Except.error EnvError.unsupported_action_type := by
  constructor
  · exact (construction_validation build_ok_w (by norm_num [build_ok_w])).2.2.2.2
      (by decide) (by decide) (fun _ => by decide) (by decide)
  · exact (construction_validation build_bad_w (by norm_num [build_bad_w])).1 rfl

end MbtGym
